import Mathlib

/-!
Verification of the nutrition aggregation / unit-conversion core of the
Healthy-Eating application.  The TypeScript source is shallowly embedded:
JavaScript numbers are modelled as rationals, `Math.round` as the
half-up rounding on rationals, optional / nullable fields as `Option`,
the relational store as in-memory lists with explicit unique-key checks,
and the React component handlers as pure state-transition functions.
-/

/-- JavaScript `Math.round`: round half toward positive infinity. -/
def jsRound (x : ℚ) : ℤ := Rat.floor (x + 1/2)

/-- Characterisation used to evaluate `jsRound` on concrete values. -/
theorem jsRound_eq_of {x : ℚ} {n : ℤ} (h1 : (n : ℚ) ≤ x + 1/2)
    (h2 : x + 1/2 < (n : ℚ) + 1) : jsRound x = n := by
  show ⌊x + 1/2⌋ = n
  exact Int.floor_eq_iff.mpr ⟨h1, h2⟩

/-! ## Unit Conversion Engine (src/components/meal-item-form.tsx) -/

/-- `const servingUnits = ['cup', 'tbsp', 'tsp'] as const`. -/
inductive ServingUnit
  | cup
  | tbsp
  | tsp
deriving DecidableEq, Repr

/-- `unitToCups: Record<ServingUnit, number> = { cup: 1, tbsp: 1/16, tsp: 1/48 }`. -/
def unitToCups : ServingUnit → ℚ
  | .cup => 1
  | .tbsp => 1 / 16
  | .tsp => 1 / 48

/-- `interface BaseNutrition` — nutrient values per 1 cup. -/
structure BaseNutrition where
  calories : ℚ
  protein : ℚ
  carbs : ℚ
  fat : ℚ
  fiber : ℚ
  water : ℚ
deriving DecidableEq, Repr

/-- `scaleNutrition(base, cups)` — the six `setValue` calls written as the
record of displayed form values. -/
def scaleNutrition (base : BaseNutrition) (cups : ℚ) : BaseNutrition where
  calories := (jsRound (base.calories * cups) : ℚ)
  protein := (jsRound (base.protein * cups * 10) : ℚ) / 10
  carbs := (jsRound (base.carbs * cups * 10) : ℚ) / 10
  fat := (jsRound (base.fat * cups * 10) : ℚ) / 10
  fiber := (jsRound (base.fiber * cups * 10) : ℚ) / 10
  water := (jsRound (base.water * cups * 10) : ℚ) / 10

/-- `rescaleFromUnit(servingVal, unit)` for a present `baseNutrition`:
`cups = servingVal * unitToCups[unit]; scaleNutrition(baseNutrition, cups)`. -/
def rescaleFromUnit (base : BaseNutrition) (servingVal : ℚ) (unit : ServingUnit) :
    BaseNutrition :=
  scaleNutrition base (servingVal * unitToCups unit)

/-- Form state of `MealItemForm`: the per-1-cup reference (`baseNutrition`,
`null` before any food is selected) and the currently displayed scaled
values. -/
structure FormState where
  base : Option BaseNutrition
  scaled : BaseNutrition
deriving DecidableEq, Repr

/-- One serving / unit change event: the serving quantity in effect and the
unit selected. -/
structure UnitChange where
  serving : ℚ
  unit : ServingUnit
deriving DecidableEq, Repr

/-- `handleServingChange` / `handleUnitChange`: when a base profile is stored
and the quantity is positive, re-derive the displayed values from the base
via `rescaleFromUnit`; otherwise leave the displayed values untouched. -/
def applyChange (s : FormState) (c : UnitChange) : FormState :=
  match s.base with
  | none => s
  | some b =>
      if 0 < c.serving then { s with scaled := rescaleFromUnit b c.serving c.unit }
      else s

/-- A sequence of serving/unit change events applied in order. -/
def applyChanges (s : FormState) (cs : List UnitChange) : FormState :=
  cs.foldl applyChange s

theorem applyChange_base (s : FormState) (c : UnitChange) :
    (applyChange s c).base = s.base := by
  cases h : s.base with
  | none => simp [applyChange, h]
  | some b => by_cases hq : 0 < c.serving <;> simp [applyChange, h, hq]

theorem applyChanges_base (cs : List UnitChange) :
    ∀ s : FormState, (applyChanges s cs).base = s.base := by
  induction cs with
  | nil => intro s; rfl
  | cons x xs ih =>
      intro s
      show (applyChanges (applyChange s x) xs).base = s.base
      rw [ih, applyChange_base]

theorem applyChanges_of_base_none (cs : List UnitChange) :
    ∀ s : FormState, s.base = none → applyChanges s cs = s := by
  induction cs with
  | nil => intro s _; rfl
  | cons x xs ih =>
      intro s h
      show applyChanges (applyChange s x) xs = s
      have hx : applyChange s x = s := by simp [applyChange, h]
      rw [hx]
      exact ih s h

/-! Spec-side definitions (written from the specification text, for
refinement comparison). -/

/-- Modelled from the spec: the volume ratio table
`cup=1`, `tbsp=1/16`, `tsp=1/48` cup-equivalents. -/
def volumeRatio : ServingUnit → ℚ
  | .cup => 1
  | .tbsp => 1 / 16
  | .tsp => 1 / 48

/-- Modelled from the spec: scale each nutrient of a per-1-cup reference
profile by `q * volumeRatio[unit]`, rounding calories to the nearest
integer and every other nutrient to one decimal place. -/
def specConvert (ref : BaseNutrition) (q : ℚ) (u : ServingUnit) : BaseNutrition :=
  let factor := q * volumeRatio u
  { calories := (jsRound (ref.calories * factor) : ℚ)
    protein := (jsRound (ref.protein * factor * 10) : ℚ) / 10
    carbs := (jsRound (ref.carbs * factor * 10) : ℚ) / 10
    fat := (jsRound (ref.fat * factor * 10) : ℚ) / 10
    fiber := (jsRound (ref.fiber * factor * 10) : ℚ) / 10
    water := (jsRound (ref.water * factor * 10) : ℚ) / 10 }

/-- The "per 1 cup butter" reference profile of the spec example. -/
def butterRef : BaseNutrition :=
  { calories := 840, protein := 12, carbs := 0, fat := 88, fiber := 0, water := 0 }

/-- C2: for every per-1-cup reference profile and every `ServingSpec` with a
cup/tbsp/tsp unit, the conversion engine scales each nutrient by
`q * volumeRatio[unit]` (cup=1, tbsp=1/16, tsp=1/48), rounding calories to
the nearest integer and all other nutrients to one decimal place; the butter
profile `{840, 12, 0, 88, 0, 0}` at 2 tbsp yields `{105, 1.5, 0, 11, 0, 0}`. -/
theorem conversion_scales_by_volume_ratio :
    (∀ (ref : BaseNutrition) (q : ℚ) (u : ServingUnit),
      rescaleFromUnit ref q u = specConvert ref q u) ∧
    rescaleFromUnit butterRef 2 .tbsp =
      { calories := 105, protein := 3/2, carbs := 0, fat := 11, fiber := 0, water := 0 } := by
  constructor
  · intro ref q u
    cases u <;> rfl
  · have h105 : jsRound 105 = 105 := jsRound_eq_of (by norm_num) (by norm_num)
    have h15 : jsRound 15 = 15 := jsRound_eq_of (by norm_num) (by norm_num)
    have h110 : jsRound 110 = 110 := jsRound_eq_of (by norm_num) (by norm_num)
    have h0 : jsRound 0 = 0 := jsRound_eq_of (by norm_num) (by norm_num)
    simp only [rescaleFromUnit, scaleNutrition, butterRef, unitToCups]
    norm_num [h105, h15, h110, h0]

/-- C3: every rescale is re-derived from the stored per-1-cup reference
profile, never from the previously displayed scaled values: after any
sequence of serving/unit changes, a final change `c` (with positive
quantity) yields exactly the displayed values of the single direct
conversion `c` — switching unit twice with an equivalent quantity gives
the same result as one direct conversion, with no compounding drift. -/
theorem rescale_rederives_from_reference
    (s : FormState) (cs : List UnitChange) (c : UnitChange)
    (hq : 0 < c.serving) :
    (applyChanges s (cs ++ [c])).scaled = (applyChanges s [c]).scaled := by
  have h1 : applyChanges s (cs ++ [c]) = applyChange (applyChanges s cs) c := by
    unfold applyChanges
    rw [List.foldl_append]
    rfl
  rw [h1]
  show (applyChange (applyChanges s cs) c).scaled = (applyChange s c).scaled
  cases h : s.base with
  | none => rw [applyChanges_of_base_none cs s h]
  | some b =>
      have hb : (applyChanges s cs).base = some b := by rw [applyChanges_base cs s, h]
      simp [applyChange, hb, h, hq]

/-- Witness for C3: the cup→tbsp→cup round trip on the butter profile,
with the quantity held at an equivalent value, equals the direct cup
conversion. -/
theorem rescale_rederives_from_reference_witness :
    (0 : ℚ) < 1 ∧
    (applyChanges ⟨some butterRef, butterRef⟩
        ([⟨1, .cup⟩, ⟨16, .tbsp⟩] ++ [⟨1, .cup⟩])).scaled =
      (applyChanges ⟨some butterRef, butterRef⟩ [⟨1, .cup⟩]).scaled :=
  ⟨by norm_num,
   rescale_rederives_from_reference ⟨some butterRef, butterRef⟩
     [⟨1, .cup⟩, ⟨16, .tbsp⟩] ⟨1, .cup⟩ (by norm_num)⟩

/-! ## Goal Comparator (nutrition utilities) -/

/-- `calculateGoalPercentage(actual, goal)`:
`goal === 0 ? 0 : Math.round(actual / goal * 100)`. -/
def calculateGoalPercentage (actual goal : ℚ) : ℤ :=
  if goal = 0 then 0 else jsRound (actual / goal * 100)

/-- Result of `getGoalStatus`: `'success' | 'warning' | 'default'`. -/
inductive GoalStatus
  | success
  | warning
  | default
deriving DecidableEq, Repr

/-- `getGoalStatus(actual, goal)`: success within `[95,105]`, warning within
`[85,115]` (checked second), else default. -/
def getGoalStatus (actual goal : ℚ) : GoalStatus :=
  let percentage := calculateGoalPercentage actual goal
  if 95 ≤ percentage ∧ percentage ≤ 105 then .success
  else if 85 ≤ percentage ∧ percentage ≤ 115 then .warning
  else .default

/-- Modelled from the spec: percentage `goal == 0 ? 0 : round(actual/goal*100)`. -/
def specPercentage (actual goal : ℚ) : ℤ :=
  if goal = 0 then 0 else jsRound (actual / goal * 100)

/-- Modelled from the spec: classification bands
`[95,105] → on-target`, `[85,95) ∪ (105,115] → near-target`, else off-target
(rendered as success / warning / default). -/
def specClassify (p : ℤ) : GoalStatus :=
  if 95 ≤ p ∧ p ≤ 105 then .success
  else if (85 ≤ p ∧ p < 95) ∨ (105 < p ∧ p ≤ 115) then .warning
  else .default

/-- C10: the goal comparator computes percentage 0 when the goal is 0 and
`round(actual/goal*100)` otherwise, and classifies it on-target on `[95,105]`,
near-target on `[85,95) ∪ (105,115]`, off-target elsewhere; the spec examples
`(190,200) ↦ 95 ↦ on-target` and `(175,200) ↦ 88 ↦ near-target` hold. -/
theorem goal_comparator_bands :
    (∀ actual goal : ℚ,
      calculateGoalPercentage actual goal = specPercentage actual goal ∧
      getGoalStatus actual goal = specClassify (calculateGoalPercentage actual goal)) ∧
    calculateGoalPercentage 190 200 = 95 ∧
    getGoalStatus 190 200 = .success ∧
    calculateGoalPercentage 175 200 = 88 ∧
    getGoalStatus 175 200 = .warning := by
  have h95 : calculateGoalPercentage 190 200 = 95 := by
    unfold calculateGoalPercentage
    rw [if_neg (by norm_num : ¬(200 : ℚ) = 0)]
    have harg : (190 : ℚ) / 200 * 100 = 95 := by norm_num
    rw [harg]
    exact jsRound_eq_of (by norm_num) (by norm_num)
  have h88 : calculateGoalPercentage 175 200 = 88 := by
    unfold calculateGoalPercentage
    rw [if_neg (by norm_num : ¬(200 : ℚ) = 0)]
    have harg : (175 : ℚ) / 200 * 100 = 175 / 2 := by norm_num
    rw [harg]
    exact jsRound_eq_of (by norm_num) (by norm_num)
  refine ⟨fun actual goal => ⟨rfl, ?_⟩, h95, ?_, h88, ?_⟩
  · simp only [getGoalStatus, specClassify]
    split_ifs with h1 h2 h3 <;> first | rfl | (exfalso; omega)
  · norm_num [getGoalStatus, h95]
  · norm_num [getGoalStatus, h88]

/-! ## Nutrient Aggregator (calculateDailyTotals / calculateTotalMacros) -/

/-- `interface MealItem` — identification fields plus nutrient content;
`calories` is required, the remaining nutrients are optional. -/
structure MealItem where
  id : String
  food_name : String
  calories : ℚ
  carbs : Option ℚ
  fat : Option ℚ
  fiber : Option ℚ
  protein : Option ℚ
  water : Option ℚ
deriving DecidableEq, Repr

/-- `interface Meal` — `meal_items?: MealItem[]` is optional. -/
structure Meal where
  id : String
  meal_items : Option (List MealItem)
deriving DecidableEq, Repr

/-- The daily totals record accumulated by `calculateDailyTotals`. -/
structure DailyTotals where
  calories : ℚ
  carbs : ℚ
  fat : ℚ
  fiber : ℚ
  protein : ℚ
  water : ℚ
deriving DecidableEq, Repr

/-- The `forEach` body of `calculateDailyTotals`: add one item's nutrients
(`item.x || 0` treats a missing field as zero). -/
def addItem (t : DailyTotals) (item : MealItem) : DailyTotals where
  calories := t.calories + item.calories
  carbs := t.carbs + item.carbs.getD 0
  fat := t.fat + item.fat.getD 0
  fiber := t.fiber + item.fiber.getD 0
  protein := t.protein + item.protein.getD 0
  water := t.water + item.water.getD 0

/-- The outer `forEach` body of `calculateDailyTotals`: add every item of a
meal that has `meal_items`. -/
def addMealItems (t : DailyTotals) (meal : Meal) : DailyTotals :=
  match meal.meal_items with
  | some items => items.foldl addItem t
  | none => t

/-- `calculateDailyTotals(meals)`: start from the all-zero totals and add
every item of every meal that has `meal_items`. -/
def calculateDailyTotals (meals : List Meal) : DailyTotals :=
  meals.foldl addMealItems ⟨0, 0, 0, 0, 0, 0⟩

/-- The macro totals record accumulated by `calculateTotalMacros`. -/
structure MacroTotals where
  carbs : ℚ
  fat : ℚ
  fiber : ℚ
  protein : ℚ
deriving DecidableEq, Repr

/-- The `reduce` body of `calculateTotalMacros`. -/
def addMacros (t : MacroTotals) (item : MealItem) : MacroTotals where
  carbs := t.carbs + item.carbs.getD 0
  fat := t.fat + item.fat.getD 0
  fiber := t.fiber + item.fiber.getD 0
  protein := t.protein + item.protein.getD 0

/-- `calculateTotalMacros(items)`. -/
def calculateTotalMacros (items : List MealItem) : MacroTotals :=
  items.foldl addMacros ⟨0, 0, 0, 0⟩

/-- The line items of a meal list in fetch order (a meal without
`meal_items` contributes nothing). -/
def mealLineItems (meals : List Meal) : List MealItem :=
  meals.foldr (fun m acc => m.meal_items.getD [] ++ acc) []

theorem addMealItems_eq (t : DailyTotals) (m : Meal) :
    addMealItems t m = (m.meal_items.getD []).foldl addItem t := by
  cases hm : m.meal_items <;> simp [addMealItems, hm]

theorem calculateDailyTotals_eq_foldl (meals : List Meal) :
    calculateDailyTotals meals = (mealLineItems meals).foldl addItem ⟨0, 0, 0, 0, 0, 0⟩ := by
  suffices h : ∀ t : DailyTotals,
      meals.foldl addMealItems t = (mealLineItems meals).foldl addItem t from h _
  induction meals with
  | nil => intro t; rfl
  | cons m ms ih =>
      intro t
      show ms.foldl addMealItems (addMealItems t m) =
        (m.meal_items.getD [] ++ mealLineItems ms).foldl addItem t
      rw [List.foldl_append, ih, addMealItems_eq]

theorem foldl_addItem_sum (l : List MealItem) :
    ∀ t : DailyTotals,
      l.foldl addItem t =
        { calories := t.calories + (l.map (fun i => i.calories)).sum
          carbs := t.carbs + (l.map (fun i => i.carbs.getD 0)).sum
          fat := t.fat + (l.map (fun i => i.fat.getD 0)).sum
          fiber := t.fiber + (l.map (fun i => i.fiber.getD 0)).sum
          protein := t.protein + (l.map (fun i => i.protein.getD 0)).sum
          water := t.water + (l.map (fun i => i.water.getD 0)).sum } := by
  induction l with
  | nil => intro t; simp
  | cons x xs ih =>
      intro t
      show xs.foldl addItem (addItem t x) = _
      rw [ih]
      simp only [addItem, List.map_cons, List.sum_cons, DailyTotals.mk.injEq]
      exact ⟨by ring, by ring, by ring, by ring, by ring, by ring⟩

theorem foldl_addMacros_sum (l : List MealItem) :
    ∀ t : MacroTotals,
      l.foldl addMacros t =
        { carbs := t.carbs + (l.map (fun i => i.carbs.getD 0)).sum
          fat := t.fat + (l.map (fun i => i.fat.getD 0)).sum
          fiber := t.fiber + (l.map (fun i => i.fiber.getD 0)).sum
          protein := t.protein + (l.map (fun i => i.protein.getD 0)).sum } := by
  induction l with
  | nil => intro t; simp
  | cons x xs ih =>
      intro t
      show xs.foldl addMacros (addMacros t x) = _
      rw [ih]
      simp only [addMacros, List.map_cons, List.sum_cons, MacroTotals.mk.injEq]
      exact ⟨by ring, by ring, by ring, by ring⟩

/-- C6: aggregation is order-independent — any two meal lists whose line
items are permutations of each other produce the same daily totals, and
`calculateTotalMacros` is invariant under permutation of its item list. -/
theorem aggregation_order_independent :
    (∀ m1 m2 : List Meal, (mealLineItems m1).Perm (mealLineItems m2) →
      calculateDailyTotals m1 = calculateDailyTotals m2) ∧
    (∀ l1 l2 : List MealItem, l1.Perm l2 →
      calculateTotalMacros l1 = calculateTotalMacros l2) := by
  constructor
  · intro m1 m2 h
    rw [calculateDailyTotals_eq_foldl, calculateDailyTotals_eq_foldl,
      foldl_addItem_sum, foldl_addItem_sum]
    simp only [DailyTotals.mk.injEq]
    refine ⟨?_, ?_, ?_, ?_, ?_, ?_⟩ <;>
      exact congrArg _ ((h.map _).sum_eq)
  · intro l1 l2 h
    unfold calculateTotalMacros
    rw [foldl_addMacros_sum, foldl_addMacros_sum]
    simp only [MacroTotals.mk.injEq]
    refine ⟨?_, ?_, ?_, ?_⟩ <;>
      exact congrArg _ ((h.map _).sum_eq)

/-- Two sample items for the aggregation witness. -/
def itemA : MealItem := ⟨"a", "toast", 105, some 20, some 1, none, some (3/2), none⟩

/-- Second sample item for the aggregation witness. -/
def itemB : MealItem := ⟨"b", "eggs", 240, none, some 15, some 0, some 12, some 1⟩

/-- Witness for C6: splitting the same two items across meals in either
order gives the same daily totals, and permuting the item list gives the
same macro totals. -/
theorem aggregation_order_independent_witness :
    ((mealLineItems [⟨"m1", some [itemA, itemB]⟩]).Perm
        (mealLineItems [⟨"m2", some [itemB]⟩, ⟨"m3", some [itemA]⟩]) ∧
      calculateDailyTotals [⟨"m1", some [itemA, itemB]⟩] =
        calculateDailyTotals [⟨"m2", some [itemB]⟩, ⟨"m3", some [itemA]⟩]) ∧
    ([itemA, itemB].Perm [itemB, itemA] ∧
      calculateTotalMacros [itemA, itemB] = calculateTotalMacros [itemB, itemA]) := by
  have hp1 : (mealLineItems [⟨"m1", some [itemA, itemB]⟩]).Perm
      (mealLineItems [⟨"m2", some [itemB]⟩, ⟨"m3", some [itemA]⟩]) := by
    show List.Perm [itemA, itemB] [itemB, itemA]
    exact List.Perm.swap itemB itemA []
  have hp2 : List.Perm [itemA, itemB] [itemB, itemA] := List.Perm.swap itemB itemA []
  exact ⟨⟨hp1, aggregation_order_independent.1 _ _ hp1⟩,
    ⟨hp2, aggregation_order_independent.2 _ _ hp2⟩⟩

/-! ## Cup-gram resolution and food selection (src/components/food-search-modal.tsx) -/

/-- JavaScript `String.prototype.includes`: contiguous substring test. -/
def strIncludes (hay needle : String) : Bool :=
  hay.toList.tails.any (fun t => needle.toList.isPrefixOf t)

/-- JavaScript `String.prototype.startsWith`. -/
def strStarts (hay needle : String) : Bool :=
  needle.toList.isPrefixOf hay.toList

/-- `interface FoodPortion` (the fields `findCupGrams` reads). -/
structure FoodPortion where
  measureUnit : String
  gramWeight : ℚ
  amount : ℚ
deriving DecidableEq, Repr

/-- The predicate of the `portions.find(...)` call in `findCupGrams`. -/
def cupUnitMatch (u : String) : Bool :=
  u == "cup" || u == "cup, whole" || u == "cup, sliced" ||
  u == "cup, chopped" || u == "cup, diced" || u == "cup, mashed" ||
  u == "cup, halves" || u == "cup, pieces" || u == "cup, shredded" ||
  strStarts u "1 cup" ||
  (strIncludes u "cup" && !(strIncludes u "undrained"))

/-- `findCupGrams(portions)`: grams per cup of the first matching portion,
`null` when none matches. -/
def findCupGrams (portions : List FoodPortion) : Option ℚ :=
  (portions.find? (fun p => cupUnitMatch p.measureUnit)).map
    (fun p => p.gramWeight / p.amount)

/-- `scaleNutrientFromGrams(per100g, gramWeight)`. -/
def scaleNutrientFromGrams (per100g gramWeight : ℚ) : ℚ :=
  per100g * gramWeight / 100

/-- `interface FoodSearchResult` (the fields `handleSelectFood` reads;
nutrients are on a per-100g basis). -/
structure FoodSearchResult where
  description : String
  calories : ℚ
  protein : ℚ
  carbs : ℚ
  fat : ℚ
  fiber : ℚ
  water : ℚ
  portions : List FoodPortion
deriving DecidableEq, Repr

/-- The argument record passed to `onSelect`. -/
structure SelectedFood where
  name : String
  calories : ℚ
  protein : ℚ
  carbs : ℚ
  fat : ℚ
  fiber : ℚ
  water : ℚ
  defaultAmount : String
deriving DecidableEq, Repr

/-- The per-100g branch of `handleSelectFood` (no cup mapping): nutrients
used as-is up to display rounding, serving text `per 100g (no cup data)`. -/
def per100gSelection (food : FoodSearchResult) : SelectedFood where
  name := food.description
  calories := (jsRound food.calories : ℚ)
  protein := (jsRound (food.protein * 10) : ℚ) / 10
  carbs := (jsRound (food.carbs * 10) : ℚ) / 10
  fat := (jsRound (food.fat * 10) : ℚ) / 10
  fiber := (jsRound (food.fiber * 10) : ℚ) / 10
  water := (jsRound (food.water * 10) : ℚ) / 10
  defaultAmount := "per 100g (no cup data)"

/-- The cup branch of `handleSelectFood`: convert per-100g nutrients to
per-cup via `scaleNutrientFromGrams`, serving text `per 1 cup (Ng)`. -/
def cupSelection (food : FoodSearchResult) (cupGrams : ℚ) : SelectedFood where
  name := food.description
  calories := (jsRound (scaleNutrientFromGrams food.calories cupGrams) : ℚ)
  protein := (jsRound (scaleNutrientFromGrams food.protein cupGrams * 10) : ℚ) / 10
  carbs := (jsRound (scaleNutrientFromGrams food.carbs cupGrams * 10) : ℚ) / 10
  fat := (jsRound (scaleNutrientFromGrams food.fat cupGrams * 10) : ℚ) / 10
  fiber := (jsRound (scaleNutrientFromGrams food.fiber cupGrams * 10) : ℚ) / 10
  water := (jsRound (scaleNutrientFromGrams food.water cupGrams * 10) : ℚ) / 10
  defaultAmount := "per 1 cup (" ++ toString (jsRound cupGrams) ++ "g)"

/-- `handleSelectFood` (successful fetch path): `if (cupGrams)` takes the cup
branch on a truthy (non-zero) resolved weight and the per-100g branch
otherwise. -/
def handleSelectFood (food : FoodSearchResult) : SelectedFood :=
  match findCupGrams food.portions with
  | some cupGrams =>
      if cupGrams = 0 then per100gSelection food else cupSelection food cupGrams
  | none => per100gSelection food

theorem listIncludes_append_left (a b n : List Char)
    (h : a.tails.any (fun t => n.isPrefixOf t) = true) :
    (a ++ b).tails.any (fun t => n.isPrefixOf t) = true := by
  rw [List.any_eq_true] at h ⊢
  obtain ⟨t, ht, hpre⟩ := h
  rw [List.mem_tails] at ht
  refine ⟨t ++ b, ?_, ?_⟩
  · rw [List.mem_tails]
    obtain ⟨s, hs⟩ := ht
    exact ⟨s, by rw [← List.append_assoc, hs]⟩
  · rw [List.isPrefixOf_iff_prefix] at hpre ⊢
    exact hpre.trans (t.prefix_append b)

theorem strIncludes_cup_of_starts (u : String) (h : strStarts u "1 cup" = true) :
    strIncludes u "cup" = true := by
  unfold strStarts at h
  rw [List.isPrefixOf_iff_prefix] at h
  obtain ⟨rest, hrest⟩ := h
  unfold strIncludes
  rw [← hrest]
  exact listIncludes_append_left _ rest _ (by decide)

theorem cupUnitMatch_cases (u : String) (h : cupUnitMatch u = true) :
    u = "cup" ∨ u = "cup, whole" ∨ u = "cup, sliced" ∨
    u = "cup, chopped" ∨ u = "cup, diced" ∨ u = "cup, mashed" ∨
    u = "cup, halves" ∨ u = "cup, pieces" ∨ u = "cup, shredded" ∨
    strStarts u "1 cup" = true ∨
    (strIncludes u "cup" = true ∧ strIncludes u "undrained" = false) := by
  simp only [cupUnitMatch, Bool.or_eq_true, Bool.and_eq_true, Bool.not_eq_true',
    beq_iff_eq] at h
  tauto

/-- A portion whose label starts with `1 cup` but contains `undrained`. -/
def undrainedPortion : FoodPortion :=
  { measureUnit := "1 cup, undrained", gramWeight := 200, amount := 1 }

/-- Counterexample to C5: a portion labelled `1 cup, undrained` contains
`undrained` yet is selected by the resolver (through the `startsWith('1 cup')`
branch), so the resolver does not exclude every label containing
`undrained`. -/
theorem cup_resolver_selects_undrained :
    findCupGrams [undrainedPortion] = some 200 ∧
    strIncludes undrainedPortion.measureUnit "undrained" = true := by
  constructor
  · have hfind : List.find? (fun p => cupUnitMatch p.measureUnit) [undrainedPortion] =
        some undrainedPortion :=
      List.find?_cons_of_pos _ (by decide)
    unfold findCupGrams
    rw [hfind]
    show some (undrainedPortion.gramWeight / undrainedPortion.amount) = some 200
    simp only [undrainedPortion, Option.some.injEq]
    norm_num
  · decide

/-- C5 (amended): the resolver selects only labels containing `cup`; a label
containing `undrained` is selected only when it starts with `1 cup`; the
resolved per-cup conversion is `per100g * g / 100`; and on the spec's example
portions the resolver selects grams = 150 (the `cup, sliced` entry). -/
theorem cup_resolver_amended :
    (∀ u : String, cupUnitMatch u = true → strIncludes u "cup" = true) ∧
    (∀ u : String, cupUnitMatch u = true → strIncludes u "undrained" = true →
      strStarts u "1 cup" = true) ∧
    (∀ per100g g : ℚ, scaleNutrientFromGrams per100g g = per100g * g / 100) ∧
    findCupGrams [⟨"cup, sliced", 150, 1⟩, ⟨"cup, undrained", 200, 1⟩] = some 150 := by
  refine ⟨?_, ?_, fun _ _ => rfl, ?_⟩
  · intro u h
    rcases cupUnitMatch_cases u h with h | h | h | h | h | h | h | h | h | h | h
    · rw [h]; decide
    · rw [h]; decide
    · rw [h]; decide
    · rw [h]; decide
    · rw [h]; decide
    · rw [h]; decide
    · rw [h]; decide
    · rw [h]; decide
    · rw [h]; decide
    · exact strIncludes_cup_of_starts u h
    · exact h.1
  · intro u h hund
    rcases cupUnitMatch_cases u h with h | h | h | h | h | h | h | h | h | h | h
    · rw [h] at hund; exact absurd hund (by decide)
    · rw [h] at hund; exact absurd hund (by decide)
    · rw [h] at hund; exact absurd hund (by decide)
    · rw [h] at hund; exact absurd hund (by decide)
    · rw [h] at hund; exact absurd hund (by decide)
    · rw [h] at hund; exact absurd hund (by decide)
    · rw [h] at hund; exact absurd hund (by decide)
    · rw [h] at hund; exact absurd hund (by decide)
    · rw [h] at hund; exact absurd hund (by decide)
    · exact h
    · rw [hund] at h; exact absurd h.2 (by simp)
  · have hfind : List.find? (fun p : FoodPortion => cupUnitMatch p.measureUnit)
        ([⟨"cup, sliced", 150, 1⟩, ⟨"cup, undrained", 200, 1⟩] : List FoodPortion) =
        some ⟨"cup, sliced", 150, 1⟩ :=
      List.find?_cons_of_pos _ (by decide)
    unfold findCupGrams
    rw [hfind]
    show some ((150 : ℚ) / 1) = some 150
    simp only [Option.some.injEq]
    norm_num

/-- Witness for C5 (amended): the `cup, undrained` label is matched through
the exclusion branch only when it lacks `undrained`; concretely,
`cup, chopped` matches, contains `cup`, and the claim's quantified parts
apply to it. -/
theorem cup_resolver_amended_witness :
    (cupUnitMatch "cup, chopped" = true ∧ strIncludes "cup, chopped" "cup" = true) ∧
    (cupUnitMatch "1 cup, undrained" = true ∧
      strIncludes "1 cup, undrained" "undrained" = true ∧
      strStarts "1 cup, undrained" "1 cup" = true) :=
  ⟨⟨by decide, cup_resolver_amended.1 "cup, chopped" (by decide)⟩,
   ⟨by decide, by decide,
    cup_resolver_amended.2.1 "1 cup, undrained" (by decide) (by decide)⟩⟩

/-- A food with no portion metadata at all (degraded per-100g mode). -/
def sampleFood100g : FoodSearchResult :=
  { description := "Canned broth", calories := 50, protein := 1, carbs := 2,
    fat := 3, fiber := 0, water := 90, portions := [] }

/-- Counterexample to C4: in the no-cup-mapping degraded mode the serving
description produced by the selection handler is `per 100g (no cup data)`,
not the string `per 100g` the claim states. -/
theorem degraded_mode_description_not_per100g :
    (handleSelectFood sampleFood100g).defaultAmount = "per 100g (no cup data)" ∧
    (handleSelectFood sampleFood100g).defaultAmount ≠ "per 100g" := by
  constructor
  · rfl
  · show ("per 100g (no cup data)" : String) ≠ "per 100g"
    decide

/-- C4 (amended): for every food profile on a per-100g basis whose portion
list yields no resolvable cup-gram weight, the selection returns the profile
unscaled — only display rounding applied (calories to the nearest integer,
other nutrients to one decimal place) — with serving description
`per 100g (no cup data)`. -/
theorem degraded_mode_unscaled (food : FoodSearchResult)
    (h : findCupGrams food.portions = none) :
    (handleSelectFood food).name = food.description ∧
    (handleSelectFood food).calories = (jsRound food.calories : ℚ) ∧
    (handleSelectFood food).protein = (jsRound (food.protein * 10) : ℚ) / 10 ∧
    (handleSelectFood food).carbs = (jsRound (food.carbs * 10) : ℚ) / 10 ∧
    (handleSelectFood food).fat = (jsRound (food.fat * 10) : ℚ) / 10 ∧
    (handleSelectFood food).fiber = (jsRound (food.fiber * 10) : ℚ) / 10 ∧
    (handleSelectFood food).water = (jsRound (food.water * 10) : ℚ) / 10 ∧
    (handleSelectFood food).defaultAmount = "per 100g (no cup data)" := by
  have hsel : handleSelectFood food = per100gSelection food := by
    unfold handleSelectFood
    rw [h]
  rw [hsel]
  exact ⟨rfl, rfl, rfl, rfl, rfl, rfl, rfl, rfl⟩

/-- Witness for C4 (amended): the broth profile with an empty portion list. -/
theorem degraded_mode_unscaled_witness :
    findCupGrams sampleFood100g.portions = none ∧
    (handleSelectFood sampleFood100g).name = sampleFood100g.description ∧
    (handleSelectFood sampleFood100g).defaultAmount = "per 100g (no cup data)" := by
  have h : findCupGrams sampleFood100g.portions = none := rfl
  have hthm := degraded_mode_unscaled sampleFood100g h
  exact ⟨h, hthm.1, hthm.2.2.2.2.2.2.2⟩

/-! ## Daily Log Reconciler (src/app/(protected)/meals/page.tsx)

The relational store is modelled in memory: `weeks` has the unique
constraint `(user_id, start_date)` and `daily_logs` the unique constraint
`(user_id, log_date)`; a violated constraint surfaces as the error code
`23505`.  Calendar dates are modelled as day numbers.  Each operation takes
the store snapshot its reads saw and the store its insert hits, so that two
racing callers can be interleaved explicitly. -/

/-- A row of the `weeks` table. -/
structure WeekRow where
  id : String
  user_id : String
  start_date : ℕ
  end_date : ℕ
deriving DecidableEq, Repr

/-- A row of the `daily_logs` table. -/
structure DailyRow where
  id : String
  week_id : String
  user_id : String
  log_date : ℕ
  total_calories : ℚ
  total_carbs : ℚ
  total_fat : ℚ
  total_fiber : ℚ
  total_protein : ℚ
  water_intake : ℚ
deriving DecidableEq, Repr

/-- The relational store. -/
structure Store where
  weeks : List WeekRow
  dailyLogs : List DailyRow
deriving DecidableEq, Repr

/-- Natural key of a week: `(user_id, start_date)`. -/
def weekKeyMatches (user : String) (ws : ℕ) (w : WeekRow) : Bool :=
  w.user_id == user && w.start_date == ws

/-- `weeks.select().eq(user_id).eq(start_date).single()`. -/
def findWeekExact (s : Store) (user : String) (ws : ℕ) : Option WeekRow :=
  s.weeks.find? (weekKeyMatches user ws)

/-- `weeks.select().eq(user_id).lte(start_date, date).gte(end_date, date).single()`. -/
def findWeekRange (s : Store) (user : String) (date : ℕ) : Option WeekRow :=
  s.weeks.find? (fun w =>
    w.user_id == user && decide (w.start_date ≤ date) && decide (date ≤ w.end_date))

/-- Insert into `weeks`, enforcing `UNIQUE(user_id, start_date)`. -/
def insertWeek (s : Store) (w : WeekRow) : Except String Store :=
  if s.weeks.any (weekKeyMatches w.user_id w.start_date) then .error "23505"
  else .ok { s with weeks := w :: s.weeks }

/-- `findOrCreateWeek`: exact `start_date` match, then range containment,
then insert; a `23505` duplicate-key failure falls back to a re-read by the
natural key, any other failure is thrown (`none`).  `sRead` is the store its
reads saw, `sIns` the store its insert and fallback re-read hit. -/
def findOrCreateWeek (user : String) (ws we sel : ℕ) (newId : String)
    (sRead sIns : Store) : Option (WeekRow × Store) :=
  match findWeekExact sRead user ws with
  | some w => some (w, sIns)
  | none =>
    match findWeekRange sRead user sel with
    | some w => some (w, sIns)
    | none =>
      match insertWeek sIns ⟨newId, user, ws, we⟩ with
      | .ok s1 => some (⟨newId, user, ws, we⟩, s1)
      | .error code =>
        if code == "23505" then (findWeekExact sIns user ws).map (fun w => (w, sIns))
        else none

/-- Natural key of a daily log: `(user_id, log_date)`. -/
def dailyKeyMatches (user : String) (date : ℕ) (r : DailyRow) : Bool :=
  r.user_id == user && r.log_date == date

/-- `daily_logs.select().eq(user_id).eq(log_date).single()`. -/
def findDailyLog (s : Store) (user : String) (date : ℕ) : Option DailyRow :=
  s.dailyLogs.find? (dailyKeyMatches user date)

/-- Insert into `daily_logs`, enforcing `UNIQUE(user_id, log_date)`. -/
def insertDailyLog (s : Store) (r : DailyRow) : Except String Store :=
  if s.dailyLogs.any (dailyKeyMatches r.user_id r.log_date) then .error "23505"
  else .ok { s with dailyLogs := r :: s.dailyLogs }

/-- The daily-log creation step of `fetchDayData`: insert with zeroed
totals; a `23505` duplicate-key failure falls back to a re-read by the
natural key. -/
def createDailyLog (user : String) (date : ℕ) (weekId newId : String)
    (s : Store) : Option (DailyRow × Store) :=
  match insertDailyLog s ⟨newId, weekId, user, date, 0, 0, 0, 0, 0, 0⟩ with
  | .ok s1 => some (⟨newId, weekId, user, date, 0, 0, 0, 0, 0, 0⟩, s1)
  | .error code =>
    if code == "23505" then (findDailyLog s user date).map (fun r => (r, s))
    else none

/-- The get-or-create part of `fetchDayData`: read the daily log first,
create it only when none exists. -/
def getOrCreateDailyLog (user : String) (date : ℕ) (weekId newId : String)
    (sRead sIns : Store) : Option (DailyRow × Store) :=
  match findDailyLog sRead user date with
  | some log => some (log, sIns)
  | none => createDailyLog user date weekId newId sIns

/-- C1: a uniqueness-constraint violation on insert is not an error.  For a
pair of racing get-or-create calls on the same `(user, startDate)` week or
`(user, date)` day (both reading the same pre-insert snapshot), the first
caller inserts the row; the second caller's insert hits the `23505`
duplicate-key error, re-reads by the natural key, and proceeds with the
first caller's row — so exactly one record survives and both callers hold
it. -/
theorem race_tolerant_get_or_create
    (s0 : Store) (user : String) (ws we sel date : ℕ)
    (idA idB idC idD weekId : String)
    (hwe : findWeekExact s0 user ws = none)
    (hwr : findWeekRange s0 user sel = none)
    (hd : findDailyLog s0 user date = none) :
    (findOrCreateWeek user ws we sel idA s0 s0 =
        some (⟨idA, user, ws, we⟩, { s0 with weeks := ⟨idA, user, ws, we⟩ :: s0.weeks }) ∧
      findOrCreateWeek user ws we sel idB s0
          { s0 with weeks := ⟨idA, user, ws, we⟩ :: s0.weeks } =
        some (⟨idA, user, ws, we⟩, { s0 with weeks := ⟨idA, user, ws, we⟩ :: s0.weeks }) ∧
      (⟨idA, user, ws, we⟩ :: s0.weeks).countP (weekKeyMatches user ws) = 1) ∧
    (getOrCreateDailyLog user date weekId idC s0 s0 =
        some (⟨idC, weekId, user, date, 0, 0, 0, 0, 0, 0⟩,
          { s0 with dailyLogs := ⟨idC, weekId, user, date, 0, 0, 0, 0, 0, 0⟩ :: s0.dailyLogs }) ∧
      getOrCreateDailyLog user date weekId idD s0
          { s0 with dailyLogs := ⟨idC, weekId, user, date, 0, 0, 0, 0, 0, 0⟩ :: s0.dailyLogs } =
        some (⟨idC, weekId, user, date, 0, 0, 0, 0, 0, 0⟩,
          { s0 with dailyLogs := ⟨idC, weekId, user, date, 0, 0, 0, 0, 0, 0⟩ :: s0.dailyLogs }) ∧
      (⟨idC, weekId, user, date, 0, 0, 0, 0, 0, 0⟩ :: s0.dailyLogs).countP
        (dailyKeyMatches user date) = 1) := by
  have hanyW : s0.weeks.any (weekKeyMatches user ws) = false :=
    List.any_eq_false.mpr fun x hx => List.find?_eq_none.mp hwe x hx
  have hkeyW : weekKeyMatches user ws ⟨idA, user, ws, we⟩ = true := by
    simp [weekKeyMatches]
  have hanyD : s0.dailyLogs.any (dailyKeyMatches user date) = false :=
    List.any_eq_false.mpr fun x hx => List.find?_eq_none.mp hd x hx
  have hkeyD : dailyKeyMatches user date ⟨idC, weekId, user, date, 0, 0, 0, 0, 0, 0⟩ = true := by
    simp [dailyKeyMatches]
  have hwe' : List.find? (weekKeyMatches user ws) s0.weeks = none := hwe
  have hd' : List.find? (dailyKeyMatches user date) s0.dailyLogs = none := hd
  refine ⟨⟨?_, ?_, ?_⟩, ⟨?_, ?_, ?_⟩⟩
  · simp [findOrCreateWeek, hwe, hwr, insertWeek, hanyW]
  · simp [findOrCreateWeek, hwe, hwr, insertWeek, findWeekExact, hkeyW, hwe']
  · rw [List.countP_cons_of_pos _ _ hkeyW,
      List.countP_eq_zero.mpr fun a ha => List.find?_eq_none.mp hwe a ha]
  · simp [getOrCreateDailyLog, hd, createDailyLog, insertDailyLog, hanyD]
  · simp [getOrCreateDailyLog, hd, createDailyLog, insertDailyLog, findDailyLog, hkeyD, hd']
  · rw [List.countP_cons_of_pos _ _ hkeyD,
      List.countP_eq_zero.mpr fun a ha => List.find?_eq_none.mp hd a ha]

/-- Witness for C1: the race on an initially empty store. -/
theorem race_tolerant_get_or_create_witness :
    (findWeekExact ⟨[], []⟩ "u" 0 = none ∧ findWeekRange ⟨[], []⟩ "u" 3 = none ∧
      findDailyLog ⟨[], []⟩ "u" 3 = none) ∧
    findOrCreateWeek "u" 0 6 3 "wA" ⟨[], []⟩ ⟨[], []⟩ =
      some (⟨"wA", "u", 0, 6⟩, ⟨[⟨"wA", "u", 0, 6⟩], []⟩) ∧
    findOrCreateWeek "u" 0 6 3 "wB" ⟨[], []⟩ ⟨[⟨"wA", "u", 0, 6⟩], []⟩ =
      some (⟨"wA", "u", 0, 6⟩, ⟨[⟨"wA", "u", 0, 6⟩], []⟩) := by
  have h := race_tolerant_get_or_create ⟨[], []⟩ "u" 0 6 3 3 "wA" "wB" "dC" "dD" "wk"
    rfl rfl rfl
  exact ⟨⟨rfl, rfl, rfl⟩, h.1.1, h.1.2.1⟩

/-! ## Optimistic totals reconciliation and lock gating
(src/app/(protected)/meals/page.tsx, src/components/meal-section.tsx) -/

/-- The in-memory `dailyLog` React state (`DailyLog` fields the page
mutates). -/
structure DailyLogState where
  total_calories : ℚ
  total_carbs : ℚ
  total_fat : ℚ
  total_fiber : ℚ
  total_protein : ℚ
  water_intake : ℚ
  is_locked : Bool
deriving DecidableEq, Repr

/-- The page's in-memory state: the meal list and the optional daily log. -/
structure PageState where
  meals : List Meal
  dailyLog : Option DailyLogState
deriving DecidableEq, Repr

/-- External effects issued by the handlers: the background totals write,
a `console.error` log, and a full re-fetch of the day (`fetchDayData`). -/
inductive Effect
  | persistTotals (calories carbs fat fiber protein water : ℚ)
  | logError
  | refetchDay
deriving DecidableEq, Repr

/-- `recalcAndUpdateTotals(updatedMeals)` with the outcome of the background
persistence write made explicit: recompute totals from the updated meals,
replace the in-memory meals and daily log optimistically, and issue the
background write; when the write fails, the `.then` callback only logs. -/
def recalcAndUpdateTotals (st : PageState) (updatedMeals : List Meal)
    (persistFails : Bool) : PageState × List Effect :=
  let totals := calculateDailyTotals updatedMeals
  match st.dailyLog with
  | none => ({ st with meals := updatedMeals }, [])
  | some dl =>
      ({ meals := updatedMeals
         dailyLog := some { dl with
           total_calories := totals.calories
           total_carbs := totals.carbs
           total_fat := totals.fat
           total_fiber := totals.fiber
           total_protein := totals.protein
           water_intake := totals.water } },
       .persistTotals totals.calories totals.carbs totals.fat totals.fiber
           totals.protein totals.water ::
         (if persistFails then [.logError] else []))

/-- `updateWaterIntake(newAmount)`: reject negatives, round to one decimal
place. -/
def updateWaterIntake (dl : DailyLogState) (newAmount : ℚ) : DailyLogState :=
  if newAmount < 0 then dl
  else { dl with water_intake := (jsRound (newAmount * 10) : ℚ) / 10 }

/-- `toggleLock`: unconditional boolean flip (no guard on the current lock
state). -/
def toggleLock (dl : DailyLogState) : DailyLogState :=
  { dl with is_locked := !dl.is_locked }

/-- The conditional rendering of `MealSection`: which mutation affordances
are visible for a given lock / editing state. -/
structure MealSectionView where
  deleteMealVisible : Bool
  deleteItemVisible : Bool
  addItemMenuVisible : Bool
  addMealVisible : Bool
deriving DecidableEq, Repr

/-- `MealSection` renders its delete-meal, delete-item and add-item
affordances only when `!isLocked`, and the add-meal button when `!isLocked`
and no item form is open. -/
def mealSectionView (isLocked isAddingItem hasCurrentMeal : Bool) : MealSectionView where
  deleteMealVisible := !isLocked
  deleteItemVisible := !isLocked
  addItemMenuVisible := !isLocked
  addMealVisible := !isLocked && (!hasCurrentMeal || !isAddingItem)

/-- The lock toggle row on the meals page renders whenever a daily log is
loaded, with no dependence on the lock state. -/
def lockToggleVisible (hasDailyLog : Bool) (_isLocked : Bool) : Bool :=
  hasDailyLog

/-- The water-intake edit controls render only when the day is not locked
(`isLocked ? read-only text : edit controls`). -/
def waterEditControlsVisible (isLocked : Bool) : Bool :=
  !isLocked

/-- Sample daily log with a directly entered water intake of 40 oz. -/
def sampleDailyLog : DailyLogState :=
  { total_calories := 0, total_carbs := 0, total_fat := 0, total_fiber := 0,
    total_protein := 0, water_intake := 40, is_locked := false }

/-- Sample page state holding `sampleDailyLog`. -/
def samplePage : PageState :=
  { meals := [], dailyLog := some sampleDailyLog }

/-- An updated meal list whose single item has no water value. -/
def mealsNoWater : List Meal :=
  [{ id := "m1", meal_items := some
      [{ id := "i1", food_name := "rice", calories := 200, carbs := some 45,
         fat := some 1, fiber := none, protein := some 4, water := none }] }]

/-- Counterexample to C7: when the background totals write fails,
`recalcAndUpdateTotals` only logs — it issues no re-fetch of the day and the
optimistic meal list stays in memory, contrary to the claim that the failure
triggers a full re-fetch discarding the optimistic change. -/
theorem totals_write_failure_counterexample :
    Effect.refetchDay ∉ (recalcAndUpdateTotals samplePage mealsNoWater true).2 ∧
    Effect.logError ∈ (recalcAndUpdateTotals samplePage mealsNoWater true).2 ∧
    (recalcAndUpdateTotals samplePage mealsNoWater true).1.meals = mealsNoWater := by
  refine ⟨?_, ?_, rfl⟩ <;> simp [recalcAndUpdateTotals, samplePage]

/-- C7 (amended): on a line-item mutation the recomputed totals are applied
optimistically and written in the background; when that write fails the
system only logs the failure and keeps the optimistic in-memory state — no
re-fetch is triggered by the totals write (a re-fetch happens only when a
delete request itself fails, in the meal-section handlers). -/
theorem totals_write_failure_logs_only
    (st : PageState) (updatedMeals : List Meal) (dl : DailyLogState)
    (h : st.dailyLog = some dl) :
    Effect.refetchDay ∉ (recalcAndUpdateTotals st updatedMeals true).2 ∧
    Effect.logError ∈ (recalcAndUpdateTotals st updatedMeals true).2 ∧
    Effect.refetchDay ∉ (recalcAndUpdateTotals st updatedMeals false).2 ∧
    (recalcAndUpdateTotals st updatedMeals true).1.meals = updatedMeals := by
  refine ⟨?_, ?_, ?_, ?_⟩ <;> simp [recalcAndUpdateTotals, h]

/-- Witness for C7 (amended), at the sample page state. -/
theorem totals_write_failure_logs_only_witness :
    samplePage.dailyLog = some sampleDailyLog ∧
    Effect.refetchDay ∉ (recalcAndUpdateTotals samplePage mealsNoWater true).2 ∧
    Effect.logError ∈ (recalcAndUpdateTotals samplePage mealsNoWater true).2 :=
  have h := totals_write_failure_logs_only samplePage mealsNoWater sampleDailyLog rfl
  ⟨rfl, h.1, h.2.1⟩

/-- Counterexample to C9: the line-item recomputation path overwrites the
directly entered `water_intake` (40 oz) with the sum of the items' water
values (here 0), so `water_intake` is not left unchanged by it. -/
theorem water_intake_overwritten_counterexample :
    sampleDailyLog.water_intake = 40 ∧
    ((recalcAndUpdateTotals samplePage mealsNoWater false).1.dailyLog.map
      (fun d => d.water_intake)) = some 0 ∧
    (40 : ℚ) ≠ 0 := by
  refine ⟨rfl, ?_, by norm_num⟩
  simp [recalcAndUpdateTotals, samplePage, mealsNoWater, calculateDailyTotals,
    addMealItems, addItem]

/-- C9 (amended): after any line-item mutation the recomputation path sets
`water_intake` to the aggregate of the items' water values (overwriting any
directly entered value, which survives only if it equals that sum); the
lock flag is untouched by the recomputation. -/
theorem recalc_overwrites_water_intake
    (st : PageState) (updatedMeals : List Meal) (dl : DailyLogState)
    (persistFails : Bool) (h : st.dailyLog = some dl) :
    ((recalcAndUpdateTotals st updatedMeals persistFails).1.dailyLog.map
      (fun d => d.water_intake)) = some (calculateDailyTotals updatedMeals).water ∧
    ((recalcAndUpdateTotals st updatedMeals persistFails).1.dailyLog.map
      (fun d => d.is_locked)) = some dl.is_locked := by
  constructor <;> simp [recalcAndUpdateTotals, h]

/-- Witness for C9 (amended), at the sample page state. -/
theorem recalc_overwrites_water_intake_witness :
    samplePage.dailyLog = some sampleDailyLog ∧
    ((recalcAndUpdateTotals samplePage mealsNoWater false).1.dailyLog.map
      (fun d => d.water_intake)) = some (calculateDailyTotals mealsNoWater).water :=
  ⟨rfl, (recalc_overwrites_water_intake samplePage mealsNoWater sampleDailyLog false rfl).1⟩

/-- Counterexample to C8: the water-intake direct-edit controls are gated on
the lock — they are hidden while the day is locked (read-only display), so
`waterIntake` direct edits do not remain unaffected by the lock. -/
theorem locked_water_edit_suppressed :
    waterEditControlsVisible true = false ∧ waterEditControlsVisible false = true :=
  ⟨rfl, rfl⟩

/-- C8 (amended): while a day is locked every line-item mutation affordance
(delete meal, delete item, add item, add meal) is suppressed; the lock
toggle stays rendered and flips the lock from any state; and the
water-intake direct-edit controls are likewise suppressed while locked. -/
theorem lock_suppresses_line_item_mutations :
    ∀ (isAddingItem hasCurrentMeal : Bool) (dl : DailyLogState),
      (mealSectionView true isAddingItem hasCurrentMeal).deleteMealVisible = false ∧
      (mealSectionView true isAddingItem hasCurrentMeal).deleteItemVisible = false ∧
      (mealSectionView true isAddingItem hasCurrentMeal).addItemMenuVisible = false ∧
      (mealSectionView true isAddingItem hasCurrentMeal).addMealVisible = false ∧
      (∀ isLocked : Bool, lockToggleVisible true isLocked = true) ∧
      (toggleLock dl).is_locked = !dl.is_locked ∧
      waterEditControlsVisible true = false := by
  intro a b dl
  exact ⟨rfl, rfl, rfl, rfl, fun _ => rfl, rfl, rfl⟩
